import Mathlib

/-!
Verification of the payment reconciliation controller of this repository.

The embedding models:
* `RechargeService.startPaymentPolling` (src/services/recharge.ts, lines 150-253):
  a timer-driven polling loop whose closure state is `attempts`, `isPolling`
  and a pending `setTimeout` handle, together with the query that may be in
  flight.  The loop body `poll` is embedded as the step function `pollStep`;
  the returned cleanup function is the `cancel` event.
* `PaymentManager` (src/utils/paymentManager.ts): the singleton controller
  holding the optional session state, embedded as `GState` with the
  operations `startPayment`, `handlePageShow` (the H5 resume path, which
  calls the private `startPolling`), `cleanup` and
  `manualCheckPaymentStatus`.

Timers are modelled by a boolean `timerSet` (a pending `setTimeout` whose
delay is the configured interval); real time is abstracted away.  Gateway
queries are asynchronous: a query in flight is recorded by `inFlight` and
its completion is a separate `resolve` event carrying the gateway outcome,
so arbitrary interleavings of resume signals, cancellations and query
completions are traces of the step relation.  Callbacks are recorded as
emitted events of kind `CB`.
-/

namespace OriginX

/-- Gateway response of `GET /users/recharge/status`
(src/services/recharge.ts, lines 38-45).  Every field that the code tests
for truthiness is modelled as an `Option`, since the gateway may omit it;
a present number can still be `0` and a present string can still be empty,
which is what the truthiness checks in the code react to. -/
structure PaymentStatusResponse where
  orderId : String
  amount : Option Int
  description : Option String
  createTime : Option String
  payTime : Option String
  attach : Option String
deriving DecidableEq

/-- Truthiness of an optional number in the JavaScript sense: present and
nonzero. -/
def truthyNum : Option Int → Bool
  | none => false
  | some n => n != 0

/-- Truthiness of an optional string in the JavaScript sense: present and
nonempty. -/
def truthyStr : Option String → Bool
  | none => false
  | some s => s != ""

/-- Embedding of the `isPaymentComplete` expression
(src/services/recharge.ts lines 184-188, src/utils/paymentManager.ts lines
164-168 and 307-311): `result.amount && result.description &&
result.createTime && result.payTime && result.attach`, a conjunction of
JavaScript truthiness tests. -/
def isPaymentComplete (r : PaymentStatusResponse) : Bool :=
  truthyNum r.amount && truthyStr r.description && truthyStr r.createTime
    && truthyStr r.payTime && truthyStr r.attach

/-- Classification of one gateway response, as the spec names it
(StatusVerifier). -/
inductive VerifyResult where
  | incomplete
  | verified
  | mismatched
deriving DecidableEq

/-- Classification performed inline by the code
(src/services/recharge.ts lines 184-212): completeness (truthiness of all
five fields) is tested first; only when complete is `result.attach`
compared with the expected attach token. -/
def verify (r : PaymentStatusResponse) (expected : String) : VerifyResult :=
  if isPaymentComplete r then
    if r.attach == some expected then .verified else .mismatched
  else .incomplete

/-- Classification following the words of the spec (section 4.3), for
comparison with `verify`: `Incomplete` exactly when a field is absent;
identity is checked on all-present responses. -/
def verifySpecPresence (r : PaymentStatusResponse) (expected : String) : VerifyResult :=
  if r.amount.isSome && r.description.isSome && r.createTime.isSome
      && r.payTime.isSome && r.attach.isSome then
    if r.attach == some expected then .verified else .mismatched
  else .incomplete

/-- Kind of user-visible callback fired by the polling loop: `onSuccess`,
`onFailed` or `onTimeout`. -/
inductive CB where
  | success
  | failed
  | timeout
deriving DecidableEq

/-- Outcome of one asynchronous gateway query: a response, or a thrown
error (network or server failure). -/
inductive QueryOutcome where
  | ok (r : PaymentStatusResponse)
  | err
deriving DecidableEq

/-- Events of one polling run created by `startPaymentPolling`:
the pending timer fires and `poll` starts a query; an in-flight query
resolves; the returned cleanup function is invoked. -/
inductive REvent where
  | timerFire
  | resolve (q : QueryOutcome)
  | cancel
deriving DecidableEq

/-- Closure state of one `startPaymentPolling` run:
`attempts`, `isPolling`, whether a `setTimeout` is pending (`timeoutId`
non-null), and whether a gateway query is awaiting its response. -/
structure RunState where
  attempts : Nat
  isPolling : Bool
  timerSet : Bool
  inFlight : Bool
deriving DecidableEq

/-- State of a freshly created run (src/services/recharge.ts lines
169-171 and 243): `attempts = 0`, `isPolling = true`, and the initial
`setTimeout(poll, interval)` pending. -/
def initRun : RunState := ⟨0, true, true, false⟩

/-- One step of a polling run (src/services/recharge.ts lines 173-252).
`timerFire`: `poll` begins; it returns at once when `isPolling` is false,
otherwise increments `attempts` and starts the query.
`resolve`: the awaited query completes; the continuation does not re-check
`isPolling` before classifying and firing callbacks; only the scheduling
of the next attempt is guarded by `isPolling` (success path) or by
`attempts < maxAttempts && isPolling` (catch path).
`cancel`: the returned cleanup function sets `isPolling` to false and
clears the pending timer. -/
def pollStep (maxA : Nat) (expected : String) (s : RunState) :
    REvent → RunState × List CB
  | .timerFire =>
    if s.timerSet then
      if s.isPolling then
        ({ s with timerSet := false, attempts := s.attempts + 1, inFlight := true }, [])
      else ({ s with timerSet := false }, [])
    else (s, [])
  | .resolve q =>
    if s.inFlight then
      let s1 := { s with inFlight := false }
      match q with
      | .ok r =>
        match verify r expected with
        | .mismatched => ({ s1 with isPolling := false }, [.failed])
        | .verified => ({ s1 with isPolling := false }, [.success])
        | .incomplete =>
          if maxA ≤ s1.attempts then ({ s1 with isPolling := false }, [.timeout])
          else if s1.isPolling then ({ s1 with timerSet := true }, [])
          else (s1, [])
      | .err =>
        if s1.attempts < maxA && s1.isPolling then ({ s1 with timerSet := true }, [])
        else ({ s1 with isPolling := false }, [.failed])
    else (s, [])
  | .cancel => ({ s with isPolling := false, timerSet := false }, [])

/-- Run a polling run over a whole event sequence, collecting the fired
callbacks in order. -/
def pollTrace (maxA : Nat) (expected : String) :
    RunState → List REvent → RunState × List CB
  | s, [] => (s, [])
  | s, e :: es =>
    let p := pollStep maxA expected s e
    let q := pollTrace maxA expected p.1 es
    (q.1, p.2 ++ q.2)

/-- Callbacks fired strictly after the first invocation of the cleanup
function in the event sequence (empty when cleanup is never invoked). -/
def emitsAfterCancel (maxA : Nat) (expected : String) :
    RunState → List REvent → List CB
  | _, [] => []
  | s, REvent.cancel :: es =>
    (pollTrace maxA expected (pollStep maxA expected s REvent.cancel).1 es).2
  | s, e :: es => emitsAfterCancel maxA expected (pollStep maxA expected s e).1 es

/-- Event sequence of `n` full polling rounds, each consisting of the
pending timer firing and the query resolving with response `r`. -/
def pollRounds (r : PaymentStatusResponse) : Nat → List REvent
  | 0 => []
  | n + 1 => REvent.timerFire :: REvent.resolve (QueryOutcome.ok r) :: pollRounds r n

/-- Response with the correct attach token and all fields nonempty
(example scenario 1 of the spec). -/
def okResp : PaymentStatusResponse :=
  ⟨"ORD1", some 1000, some "x", some "t0", some "t1", some "TOK1"⟩

/-- Response with all fields nonempty but a foreign attach token. -/
def mismatchResp : PaymentStatusResponse :=
  ⟨"ORD1", some 1000, some "x", some "t0", some "t1", some "TOK2"⟩

/-- Pending response: the gateway has not recorded a payment time yet. -/
def pendingResp : PaymentStatusResponse :=
  ⟨"ORD1", some 1000, some "x", some "t0", none, some "TOK1"⟩

/-- Response in which every field is present but the amount is zero. -/
def zeroAmountResp : PaymentStatusResponse :=
  ⟨"ORD1", some 0, some "x", some "t0", some "t1", some "TOK1"⟩

/-- Record update clearing fields that are already clear is the identity. -/
theorem cancelled_eta (s : RunState) (hp : s.isPolling = false) (ht : s.timerSet = false) :
    ({ s with isPolling := false, timerSet := false } : RunState) = s := by
  cases s
  simp_all

/-- Dead run states (not polling, no timer pending, no query in flight) are
inert: every further event leaves the state unchanged and fires nothing. -/
theorem pollTrace_dead (maxA : Nat) (exp : String) (s : RunState)
    (hp : s.isPolling = false) (ht : s.timerSet = false) (hf : s.inFlight = false) :
    ∀ es, pollTrace maxA exp s es = (s, []) := by
  intro es
  induction es with
  | nil => rfl
  | cons e es ih =>
    have hstep : pollStep maxA exp s e = (s, []) := by
      cases e with
      | timerFire => simp [pollStep, ht]
      | resolve q => simp [pollStep, hf]
      | cancel => simp [pollStep, cancelled_eta s hp ht]
    simp [pollTrace, hstep, ih]

/-- Each single step fires nothing, or fires exactly one callback and
leaves the run with `isPolling` and `inFlight` both false. -/
theorem pollStep_emit_cases (maxA : Nat) (exp : String) (s : RunState) (e : REvent) :
    (pollStep maxA exp s e).2 = [] ∨
      ((pollStep maxA exp s e).2.length = 1 ∧
        (pollStep maxA exp s e).1.isPolling = false ∧
        (pollStep maxA exp s e).1.inFlight = false) := by
  cases e with
  | timerFire => simp [pollStep]; split_ifs <;> simp
  | cancel => simp [pollStep]
  | resolve q =>
    by_cases hf : s.inFlight
    · cases q with
      | ok r =>
        simp [pollStep, hf]
        cases verify r exp <;> simp
        split
        · simp
        · split <;> simp
      | err =>
        simp [pollStep, hf]
        split <;> simp
    · simp [pollStep, hf]

/-- Runs whose `isPolling` and `inFlight` are both false never fire a
callback again, and both flags stay false. -/
theorem pollTrace_quiet (maxA : Nat) (exp : String) :
    ∀ (es : List REvent) (s : RunState), s.isPolling = false → s.inFlight = false →
      (pollTrace maxA exp s es).2 = [] ∧
        (pollTrace maxA exp s es).1.isPolling = false ∧
        (pollTrace maxA exp s es).1.inFlight = false := by
  intro es
  induction es with
  | nil => intro s hp hf; exact ⟨rfl, hp, hf⟩
  | cons e es ih =>
    intro s hp hf
    have hstep : (pollStep maxA exp s e).2 = [] ∧
        (pollStep maxA exp s e).1.isPolling = false ∧
        (pollStep maxA exp s e).1.inFlight = false := by
      cases e with
      | timerFire => simp [pollStep, hp]; split <;> simp [hp, hf]
      | cancel => simp [pollStep, hf]
      | resolve q => simp [pollStep, hf, hp]
    have hrest := ih (pollStep maxA exp s e).1 hstep.2.1 hstep.2.2
    simp [pollTrace, hstep.1, hrest.1, hrest.2.1, hrest.2.2]

/-- Over any event sequence, a single polling run fires at most one
callback in total: every callback-firing branch sets `isPolling := false`
with no query in flight, after which the run is silent. -/
theorem pollTrace_len_le_one (maxA : Nat) (exp : String) :
    ∀ (es : List REvent) (s : RunState), (pollTrace maxA exp s es).2.length ≤ 1 := by
  intro es
  induction es with
  | nil => intro s; simp [pollTrace]
  | cons e es ih =>
    intro s
    rcases pollStep_emit_cases maxA exp s e with h0 | ⟨h1, hpz, hfz⟩
    · simp [pollTrace, h0]
      exact ih _
    · have hq := (pollTrace_quiet maxA exp es (pollStep maxA exp s e).1 hpz hfz).1
      simp [pollTrace, hq, h1]

/-- One step from a cancelled run (`isPolling` and `timerSet` both false)
keeps the attempt counter and both flags unchanged. -/
theorem pollStep_cancelled (maxA : Nat) (exp : String) (s : RunState) (e : REvent)
    (hp : s.isPolling = false) (ht : s.timerSet = false) :
    (pollStep maxA exp s e).1.attempts = s.attempts ∧
      (pollStep maxA exp s e).1.isPolling = false ∧
      (pollStep maxA exp s e).1.timerSet = false := by
  cases e with
  | timerFire => simp [pollStep, ht, hp]
  | cancel => simp [pollStep]
  | resolve q =>
    by_cases hf : s.inFlight
    · cases q with
      | ok r =>
        simp [pollStep, hf]
        cases verify r exp <;> simp [hp, ht]
        split <;> simp [hp, ht]
      | err => simp [pollStep, hf, hp, ht]
    · simp [pollStep, hf, hp, ht]

/-- A cancelled run never changes its attempt counter again and its
cancellation flags stay cleared, over any event sequence. -/
theorem pollTrace_cancelled_state (maxA : Nat) (exp : String) :
    ∀ (es : List REvent) (s : RunState), s.isPolling = false → s.timerSet = false →
      (pollTrace maxA exp s es).1.attempts = s.attempts ∧
        (pollTrace maxA exp s es).1.isPolling = false ∧
        (pollTrace maxA exp s es).1.timerSet = false := by
  intro es
  induction es with
  | nil => intro s hp ht; exact ⟨rfl, hp, ht⟩
  | cons e es ih =>
    intro s hp ht
    have hstep := pollStep_cancelled maxA exp s e hp ht
    have hrest := ih (pollStep maxA exp s e).1 hstep.2.1 hstep.2.2
    refine ⟨?_, ?_, ?_⟩ <;> simp [pollTrace]
    · exact hrest.1.trans hstep.1
    · exact hrest.2.1
    · exact hrest.2.2

/-- C1, counterexample.  The claim states that after the cleanup function
returned by `startPaymentPolling` has been invoked, no callback fires even
if an outstanding query later resolves.  In the code, the continuation
after `await this.getPaymentStatus(...)` never re-checks `isPolling`, so
the trace <first timer fires and the query departs; cleanup is invoked;
the outstanding query resolves with a complete, matching response> fires
`onSuccess` strictly after cleanup. -/
theorem claim1_counterexample :
    emitsAfterCancel 60 "TOK1" initRun
        [REvent.timerFire, REvent.cancel, REvent.resolve (QueryOutcome.ok okResp)]
        = [CB.success] ∧
      ([CB.success] : List CB) ≠ [] := by decide

/-- C1, amended: after the cleanup function has run (`isPolling = false`,
pending timer cleared), no further attempt ever begins — the attempt
counter is frozen and both flags stay cleared — and at most one callback
can still fire, namely that of a query already in flight at cleanup time;
when no query was outstanding, no callback fires at all. -/
theorem claim1_amended (maxA : Nat) (exp : String) (es : List REvent) (s : RunState)
    (hp : s.isPolling = false) (ht : s.timerSet = false) :
    (pollTrace maxA exp s es).1.attempts = s.attempts ∧
      (pollTrace maxA exp s es).1.isPolling = false ∧
      (pollTrace maxA exp s es).1.timerSet = false ∧
      (pollTrace maxA exp s es).2.length ≤ (if s.inFlight then 1 else 0) := by
  have hstate := pollTrace_cancelled_state maxA exp es s hp ht
  refine ⟨hstate.1, hstate.2.1, hstate.2.2, ?_⟩
  by_cases hf : s.inFlight = true
  · simp [hf]
    exact pollTrace_len_le_one maxA exp es s
  · have hf0 : s.inFlight = false := by simpa using hf
    have hq := (pollTrace_quiet maxA exp es s hp hf0).1
    simp [hf0, hq]

/-- C1 amended, witness: a cancelled run with one query in flight, which
then resolves with a complete matching response, fires exactly one
callback and its counter stays at 1. -/
theorem claim1_amended_witness :
    (pollTrace 60 "TOK1" (⟨1, false, false, true⟩ : RunState)
        [REvent.resolve (QueryOutcome.ok okResp)]).1.attempts = 1 ∧
      (pollTrace 60 "TOK1" (⟨1, false, false, true⟩ : RunState)
        [REvent.resolve (QueryOutcome.ok okResp)]).1.isPolling = false ∧
      (pollTrace 60 "TOK1" (⟨1, false, false, true⟩ : RunState)
        [REvent.resolve (QueryOutcome.ok okResp)]).1.timerSet = false ∧
      (pollTrace 60 "TOK1" (⟨1, false, false, true⟩ : RunState)
        [REvent.resolve (QueryOutcome.ok okResp)]).2.length ≤
        (if (⟨1, false, false, true⟩ : RunState).inFlight then 1 else 0) :=
  claim1_amended 60 "TOK1" [REvent.resolve (QueryOutcome.ok okResp)]
    ⟨1, false, false, true⟩ rfl rfl

/-- C3, counterexample.  The claim states that a gateway error raised when
the attempt budget is already exhausted resolves the run to the TimedOut
outcome (`onTimeout`).  With `maxAttempts = 1`, the first attempt throwing
fires `onFailed` — the catch branch calls `onFailed`, not `onTimeout` —
and Failed is a distinct signal from TimedOut. -/
theorem claim3_counterexample :
    pollTrace 1 "TOK1" initRun [REvent.timerFire, REvent.resolve QueryOutcome.err]
        = (⟨1, false, false, false⟩, [CB.failed]) ∧
      CB.failed ≠ CB.timeout := by decide

/-- C3, amended: a gateway error is retried (next attempt scheduled) while
`attempts < maxAttempts` and the run is live; once the budget is
exhausted, the run stops and fires `onFailed` — the Failed outcome, not
TimedOut. -/
theorem claim3_amended (maxA : Nat) (exp : String) (s : RunState)
    (hf : s.inFlight = true) (hp : s.isPolling = true) :
    (s.attempts < maxA →
        pollStep maxA exp s (REvent.resolve QueryOutcome.err)
          = ({ s with inFlight := false, timerSet := true }, [])) ∧
      (maxA ≤ s.attempts →
        pollStep maxA exp s (REvent.resolve QueryOutcome.err)
          = ({ s with inFlight := false, isPolling := false }, [CB.failed])) := by
  constructor
  · intro h
    simp [pollStep, hf, hp, h]
  · intro h
    simp [pollStep, hf, hp, Nat.not_lt.2 h]

/-- C3 amended, witness: with a budget of one attempt, an error on the
first (and only) attempt fires `onFailed`. -/
theorem claim3_amended_witness :
    pollStep 1 "TOK1" (⟨1, true, false, true⟩ : RunState) (REvent.resolve QueryOutcome.err)
      = (⟨1, false, false, false⟩, [CB.failed]) :=
  (claim3_amended 1 "TOK1" ⟨1, true, false, true⟩ rfl rfl).2 (by decide)

/-- Incompleteness short-circuits the classification. -/
theorem verify_of_not_complete {r : PaymentStatusResponse} (e : String)
    (hr : isPaymentComplete r = false) : verify r e = .incomplete := by
  simp [verify, hr]

/-- A pending timer of a live run fires: `poll` increments `attempts` and
sends the query. -/
theorem step_timer_live (maxA : Nat) (exp : String) (j : Nat) :
    pollStep maxA exp ⟨j, true, true, false⟩ REvent.timerFire
      = (⟨j + 1, true, false, true⟩, []) := by
  simp [pollStep]

/-- An incomplete response on a live attempt below the budget schedules
the next attempt. -/
theorem step_resolve_incomplete (maxA : Nat) (exp : String)
    {r : PaymentStatusResponse} (hr : isPaymentComplete r = false)
    (j : Nat) (hl : j < maxA) :
    pollStep maxA exp ⟨j, true, false, true⟩ (REvent.resolve (QueryOutcome.ok r))
      = (⟨j, true, true, false⟩, []) := by
  simp [pollStep, verify_of_not_complete exp hr, Nat.not_le.2 hl]

/-- An incomplete response on the final attempt of the budget fires
`onTimeout` and stops the run. -/
theorem step_resolve_timeout (maxA : Nat) (exp : String)
    {r : PaymentStatusResponse} (hr : isPaymentComplete r = false)
    (j : Nat) (hg : maxA ≤ j) :
    pollStep maxA exp ⟨j, true, false, true⟩ (REvent.resolve (QueryOutcome.ok r))
      = (⟨j, false, false, false⟩, [CB.timeout]) := by
  simp [pollStep, verify_of_not_complete exp hr, hg]

/-- Any number of incomplete rounds strictly below the budget passes
silently, counting attempts and leaving the next attempt scheduled. -/
theorem pollRounds_partial (maxA : Nat) (exp : String)
    {r : PaymentStatusResponse} (hr : isPaymentComplete r = false) :
    ∀ (k j : Nat), j + k < maxA →
      pollTrace maxA exp ⟨j, true, true, false⟩ (pollRounds r k)
        = (⟨j + k, true, true, false⟩, []) := by
  intro k
  induction k with
  | zero => intro j h; simp [pollRounds, pollTrace]
  | succ k ih =>
    intro j h
    have h2 := ih (j + 1) (by omega)
    have h3 : j + 1 + k = j + (k + 1) := by omega
    rw [h3] at h2
    simp [pollRounds, pollTrace, step_timer_live,
      step_resolve_incomplete maxA exp hr (j + 1) (by omega), h2]

/-- Running exactly the remaining budget of incomplete rounds from a live
scheduled state ends with a single `onTimeout` and a dead run. -/
theorem pollRounds_full (maxA : Nat) (exp : String)
    {r : PaymentStatusResponse} (hr : isPaymentComplete r = false) :
    ∀ (k j : Nat), j + k = maxA → 0 < k →
      pollTrace maxA exp ⟨j, true, true, false⟩ (pollRounds r k)
        = (⟨maxA, false, false, false⟩, [CB.timeout]) := by
  intro k
  induction k with
  | zero => intro j h h0; omega
  | succ k ih =>
    intro j h h0
    rcases Nat.eq_zero_or_pos k with hk | hk
    · subst hk
      have hj : j + 1 = maxA := by omega
      subst hj
      simp [pollRounds, pollTrace, step_timer_live,
        step_resolve_timeout (j + 1) exp hr (j + 1) (Nat.le_refl _)]
    · have h2 := ih (j + 1) (by omega) hk
      simp [pollRounds, pollTrace, step_timer_live,
        step_resolve_incomplete maxA exp hr (j + 1) (by omega), h2]

/-- C7, confirmed: with a budget of `maxAttempts ≥ 1`, after exactly
`maxAttempts` consecutive incomplete results the run fires `onTimeout`
exactly once (and nothing else) and ends dead; any strictly shorter
sequence of incomplete rounds fires nothing and leaves the next attempt
scheduled (the code sets `setTimeout(poll, interval)`); from the state
reached after the timeout, no event ever starts another query or fires
another callback.  Attempts are counted from 1: `poll` increments the
counter as each attempt begins. -/
theorem claim7_timeout_after_budget (maxA : Nat) (exp : String)
    (r : PaymentStatusResponse) (hm : 1 ≤ maxA) (hr : isPaymentComplete r = false) :
    pollTrace maxA exp initRun (pollRounds r maxA)
        = (⟨maxA, false, false, false⟩, [CB.timeout]) ∧
      (∀ j, j < maxA →
        pollTrace maxA exp initRun (pollRounds r j) = (⟨j, true, true, false⟩, [])) ∧
      (∀ es, pollTrace maxA exp ⟨maxA, false, false, false⟩ es
        = (⟨maxA, false, false, false⟩, [])) := by
  refine ⟨?_, ?_, ?_⟩
  · have h := pollRounds_full maxA exp hr maxA 0 (by omega) (by omega)
    simpa [initRun] using h
  · intro j hj
    have h := pollRounds_partial maxA exp hr j 0 (by omega)
    simpa [initRun] using h
  · intro es
    exact pollTrace_dead maxA exp _ rfl rfl rfl es

/-- C7, witness: a budget of two attempts and a perpetually pending
response produce exactly one `onTimeout` after the two rounds. -/
theorem claim7_witness :
    pollTrace 2 "TOK1" initRun (pollRounds pendingResp 2)
      = (⟨2, false, false, false⟩, [CB.timeout]) :=
  (claim7_timeout_after_budget 2 "TOK1" pendingResp (by decide) (by decide)).1

/-- C2, amended: each of the callbacks fires at most once per polling run
(per `startPaymentPolling` invocation) — in fact a single run fires at
most one callback in total, over every interleaving of timer firings,
query resolutions and cancellations, from any run state. -/
theorem claim2_amended (maxA : Nat) (exp : String) (s : RunState) (es : List REvent) :
    (pollTrace maxA exp s es).2.length ≤ 1 :=
  pollTrace_len_le_one maxA exp es s

/-- C6, counterexample.  The claim states that whenever every one of the
five fields is present, the attach comparison decides between Verified
and Mismatched.  The response with `amount = 0` and all other fields
present and nonempty has every field present and carries the expected
attach token, so the claim classifies it Verified, but the code tests
truthiness and classifies it Incomplete. -/
theorem claim6_counterexample :
    zeroAmountResp.amount.isSome = true ∧
      zeroAmountResp.description.isSome = true ∧
      zeroAmountResp.createTime.isSome = true ∧
      zeroAmountResp.payTime.isSome = true ∧
      zeroAmountResp.attach = some "TOK1" ∧
      verifySpecPresence zeroAmountResp "TOK1" = VerifyResult.verified ∧
      verify zeroAmountResp "TOK1" = VerifyResult.incomplete := by decide

/-- C6, amended: the classification is the pure function `verify`;
completeness is checked first, but completeness means truthiness (present
and nonzero or nonempty) rather than mere presence.  A response is
Incomplete exactly when some field is absent or empty or the amount is
zero; on complete responses the attach comparison alone decides Verified
versus Mismatched; in particular an absent field always yields
Incomplete. -/
theorem claim6_amended (r : PaymentStatusResponse) (e : String) :
    (verify r e = .incomplete ↔ isPaymentComplete r = false) ∧
      (isPaymentComplete r = true → (verify r e = .verified ↔ r.attach = some e)) ∧
      (isPaymentComplete r = true → (verify r e = .mismatched ↔ ¬r.attach = some e)) ∧
      ((r.amount = none ∨ r.description = none ∨ r.createTime = none
          ∨ r.payTime = none ∨ r.attach = none) →
        verify r e = .incomplete) := by
  refine ⟨?_, ?_, ?_, ?_⟩
  · by_cases hc : isPaymentComplete r
    · by_cases ha : r.attach = some e <;> simp [verify, hc, ha]
    · have hc0 : isPaymentComplete r = false := by simpa using hc
      simp [verify, hc0]
  · intro hc
    by_cases ha : r.attach = some e <;> simp [verify, hc, ha]
  · intro hc
    by_cases ha : r.attach = some e <;> simp [verify, hc, ha]
  · intro h
    have hc : isPaymentComplete r = false := by
      rcases h with h | h | h | h | h <;> simp [isPaymentComplete, h, truthyNum, truthyStr]
    simp [verify, hc]

/-- C6 amended, witness: the complete matching response is classified
Verified, and the classification facts instantiate at it. -/
theorem claim6_amended_witness :
    (verify okResp "TOK1" = .incomplete ↔ isPaymentComplete okResp = false) ∧
      (isPaymentComplete okResp = true →
        (verify okResp "TOK1" = .verified ↔ okResp.attach = some "TOK1")) ∧
      (isPaymentComplete okResp = true →
        (verify okResp "TOK1" = .mismatched ↔ ¬okResp.attach = some "TOK1")) ∧
      ((okResp.amount = none ∨ okResp.description = none ∨ okResp.createTime = none
          ∨ okResp.payTime = none ∨ okResp.attach = none) →
        verify okResp "TOK1" = .incomplete) :=
  claim6_amended okResp "TOK1"

/-- C10, confirmed: the completeness check tests truthiness, so a response
whose amount is zero, or any of whose string fields is the empty string,
is classified Incomplete (payment still pending, to be retried) — the
attach comparison is never reached, whatever the expected token is. -/
theorem claim10_truthiness (r : PaymentStatusResponse) (e : String)
    (h : r.amount = some 0 ∨ r.description = some "" ∨ r.createTime = some ""
      ∨ r.payTime = some "" ∨ r.attach = some "") :
    verify r e = VerifyResult.incomplete := by
  have hc : isPaymentComplete r = false := by
    rcases h with h | h | h | h | h <;> simp [isPaymentComplete, h, truthyNum, truthyStr]
  simp [verify, hc]

/-- C10, witness: the all-present response with a zero amount and the
matching attach token is still classified Incomplete. -/
theorem claim10_witness :
    (zeroAmountResp.amount = some 0 ∨ zeroAmountResp.description = some ""
        ∨ zeroAmountResp.createTime = some "" ∨ zeroAmountResp.payTime = some ""
        ∨ zeroAmountResp.attach = some "") ∧
      verify zeroAmountResp "TOK1" = VerifyResult.incomplete :=
  ⟨Or.inl rfl, claim10_truthiness zeroAmountResp "TOK1" (Or.inl rfl)⟩

/-- Entry for one polling run in the global model: the attach token the
run was created with (captured by the `startPaymentPolling` closure) and
its closure state. -/
structure RunEntry where
  expected : String
  st : RunState
deriving DecidableEq

/-- Session part of the `PaymentManager` state
(src/utils/paymentManager.ts lines 5-17): the attach token of the active
order, and the index of the run whose cleanup function is currently
stored in `pollingCleanup`, when polling has been started.  The source
field `isPolling` is set to true in `startPayment` and never assigned
false — the whole state is replaced by null instead — so it is constantly
true while the session exists and is omitted here; `orderId`, `amount`
and the stored callback references do not influence the control flow
modelled here. -/
structure SessionState where
  attach : String
  curRun : Option Nat
deriving DecidableEq

/-- Global state of the controller: the optional session of the singleton
`PaymentManager`, plus every polling run created so far.  Cancelled runs
are kept because a query they already sent can still resolve. -/
structure GState where
  session : Option SessionState
  runs : List RunEntry
deriving DecidableEq

/-- Fresh controller: no session, no runs. -/
def initG : GState := ⟨none, []⟩

/-- Effect of invoking the cleanup function of one run (the closure
returned by `startPaymentPolling`): `isPolling := false` and the pending
timer cleared. -/
def cancelEntry (en : RunEntry) : RunEntry :=
  ⟨en.expected, { en.st with isPolling := false, timerSet := false }⟩

/-- Cancel the run at index `i`, when that index exists. -/
def cancelRunAt (g : GState) (i : Nat) : GState :=
  ⟨g.session,
    match g.runs[i]? with
    | some en => g.runs.set i (cancelEntry en)
    | none => g.runs⟩

/-- `PaymentManager.cleanup` (src/utils/paymentManager.ts lines 270-284):
when a session exists, invoke its stored polling cleanup function, remove
the listeners and null the state; with no session it does nothing. -/
def cleanup (g : GState) : GState :=
  match g.session with
  | none => g
  | some ss =>
    let g1 := match ss.curRun with
      | some i => cancelRunAt g i
      | none => g
    ⟨none, g1.runs⟩

/-- `PaymentManager.startPayment` (lines 40-72): synchronously clean up
the previous state, then install the new session; listener registration
is implicit in the model — `handlePageShow` is enabled whenever a session
exists. -/
def startPayment (attach : String) (g : GState) : GState :=
  let g1 := cleanup g
  ⟨some ⟨attach, none⟩, g1.runs⟩

/-- `PaymentManager.handlePageShow` in the H5 environment (lines 136-150;
the `visibilitychange` and `focus` listeners of lines 84-104 call the same
private `startPolling`), together with `startPolling` (lines 210-265):
with no session, a no-op; otherwise the run stored in `pollingCleanup` is
cancelled, if any, and a fresh `startPaymentPolling` run is created and
becomes the current run. -/
def handlePageShow (g : GState) : GState :=
  match g.session with
  | none => g
  | some ss =>
    let g1 := match ss.curRun with
      | some i => cancelRunAt g i
      | none => g
    ⟨some ⟨ss.attach, some g1.runs.length⟩, g1.runs ++ [⟨ss.attach, initRun⟩]⟩

/-- Budget `startPolling` passes to `startPaymentPolling`
(line 259: `maxAttempts: 30`). -/
def mgrMaxAttempts : Nat := 30

/-- An event of run `i`, processed through the wrapped callbacks that
`startPolling` hands to `startPaymentPolling` (lines 227-258): each
wrapped callback first calls `this.cleanup()` on the singleton and then
fires the caller-supplied callback of the same kind — even when the
session has already been replaced or removed. -/
def runEvent (g : GState) (i : Nat) (e : REvent) : GState × List CB :=
  match g.runs[i]? with
  | none => (g, [])
  | some en =>
    let p := pollStep mgrMaxAttempts en.expected en.st e
    let g1 : GState := ⟨g.session, g.runs.set i ⟨en.expected, p.1⟩⟩
    if p.2 = [] then (g1, []) else (cleanup g1, p.2)

/-- Events of the controller model: a new payment session starts; a
resume signal arrives (page becomes visible again); the pending timer of
run `i` fires; the in-flight query of run `i` resolves; external code
calls `cleanup`. -/
inductive MEvent where
  | start (attach : String)
  | pageShow
  | timer (i : Nat)
  | resolve (i : Nat) (q : QueryOutcome)
  | doCleanup
deriving DecidableEq

/-- One controller step, returning the new global state and the
caller-visible callbacks fired during it. -/
def mgrStep (g : GState) : MEvent → GState × List CB
  | .start a => (startPayment a g, [])
  | .pageShow => (handlePageShow g, [])
  | .timer i => runEvent g i REvent.timerFire
  | .resolve i q => runEvent g i (REvent.resolve q)
  | .doCleanup => (cleanup g, [])

/-- Run the controller over a whole event sequence, collecting the
caller-visible callbacks in order. -/
def mgrTrace : GState → List MEvent → GState × List CB
  | g, [] => (g, [])
  | g, e :: es =>
    let p := mgrStep g e
    let q := mgrTrace p.1 es
    (q.1, p.2 ++ q.2)

/-- Whether the run at index `i` is live: its `isPolling` is true, so it
can still schedule further attempts. -/
def pollingAt (l : List RunEntry) (i : Nat) : Bool :=
  match l[i]? with
  | some en => en.st.isPolling
  | none => false

/-- Recognizer of session starts, to count sessions in a trace. -/
def isStartEvent : MEvent → Bool
  | .start _ => true
  | _ => false

/-- `PaymentManager.manualCheckPaymentStatus` (lines 296-348).  The
asynchronous gateway outcome is passed as an oracle argument that is
consulted only when a query is actually made.  Returns the new global
state, the value handed back to the caller (`none` models null), and
whether a network query was performed. -/
def manualCheckPaymentStatus (g : GState) (q : QueryOutcome) :
    GState × Option PaymentStatusResponse × Bool :=
  match g.session with
  | none => (g, none, false)
  | some ss =>
    match q with
    | .err => (g, none, true)
    | .ok r =>
      if isPaymentComplete r then
        if r.attach == some ss.attach then (cleanup g, some r, true)
        else (cleanup g, none, true)
      else (g, some r, true)

/-- Cancelling a run keeps the number of runs. -/
theorem length_cancelRunAt (g : GState) (i : Nat) :
    (cancelRunAt g i).runs.length = g.runs.length := by
  unfold cancelRunAt
  cases g.runs[i]? <;> simp

/-- Manager cleanup keeps the number of runs. -/
theorem length_cleanup (g : GState) :
    (cleanup g).runs.length = g.runs.length := by
  obtain ⟨s, l⟩ := g
  cases s with
  | none => rfl
  | some ss => cases hcr : ss.curRun <;> simp [cleanup, hcr, length_cancelRunAt]

/-- A run still live after `cancelRunAt` was live before and is not the
cancelled one. -/
theorem pollingAt_cancelRunAt (g : GState) (i j : Nat)
    (h : pollingAt (cancelRunAt g i).runs j = true) :
    pollingAt g.runs j = true ∧ j ≠ i := by
  unfold cancelRunAt at h
  cases hgi : g.runs[i]? with
  | none =>
    rw [hgi] at h
    refine ⟨h, ?_⟩
    intro hji
    subst hji
    simp [pollingAt, hgi] at h
  | some en =>
    rw [hgi] at h
    by_cases hji : j = i
    · subst hji
      have hlt : j < g.runs.length := (List.getElem?_eq_some.mp hgi).1
      simp [pollingAt, List.getElem?_set_self hlt, cancelEntry] at h
    · refine ⟨?_, hji⟩
      unfold pollingAt at h ⊢
      rwa [List.getElem?_set_ne (Ne.symm hji)] at h

/-- A run still live after manager cleanup was live before. -/
theorem pollingAt_cleanup (g : GState) (j : Nat)
    (h : pollingAt (cleanup g).runs j = true) : pollingAt g.runs j = true := by
  obtain ⟨s, l⟩ := g
  cases s with
  | none => exact h
  | some ss =>
    cases hcr : ss.curRun with
    | none => simpa [cleanup, hcr] using h
    | some i =>
      have h2 : pollingAt (cancelRunAt ⟨some ss, l⟩ i).runs j = true := by
        simpa [cleanup, hcr] using h
      exact (pollingAt_cancelRunAt _ i j h2).1

/-- Invariant: every live run is the one registered as the current run of
the existing session. -/
def LiveInv (g : GState) : Prop :=
  ∀ i, pollingAt g.runs i = true → ∃ ss, g.session = some ss ∧ ss.curRun = some i

/-- Under the invariant, manager cleanup leaves no live run: the only
possibly-live run is the current one, which cleanup cancels. -/
theorem cleanup_kills (g : GState) (hInv : LiveInv g) (j : Nat) :
    pollingAt (cleanup g).runs j = false := by
  cases hpj : pollingAt (cleanup g).runs j with
  | false => rfl
  | true =>
    exfalso
    have hpg := pollingAt_cleanup g j hpj
    obtain ⟨ss, hss, hc⟩ := hInv j hpg
    obtain ⟨s, l⟩ := g
    cases s with
    | none => cases hss
    | some ss0 =>
      injection hss with hss
      subst hss
      have h2 : pollingAt (cancelRunAt ⟨some ss0, l⟩ j).runs j = true := by
        simpa [cleanup, hc] using hpj
      exact (pollingAt_cancelRunAt _ j j h2).2 rfl

/-- Any result state of `pollStep` that is still polling came from a
polling state: no step ever turns `isPolling` back on. -/
theorem pollStep_isPolling_mono (maxA : Nat) (exp : String) (s : RunState) (e : REvent)
    (h : (pollStep maxA exp s e).1.isPolling = true) : s.isPolling = true := by
  cases e with
  | timerFire =>
    revert h
    simp [pollStep]
    split_ifs <;> simp_all
  | cancel =>
    revert h
    simp [pollStep]
  | resolve q =>
    revert h
    by_cases hf : s.inFlight
    · cases q with
      | ok r =>
        simp [pollStep, hf]
        cases verify r exp <;> simp
        split
        · simp
        · split <;> simp
      | err =>
        simp [pollStep, hf]
        split <;> simp
    · simp [pollStep, hf]

/-- Resume signals preserve the invariant: the previous current run is
cancelled and the fresh run is registered as current. -/
theorem liveInv_pageShow (g : GState) (hInv : LiveInv g) :
    LiveInv (handlePageShow g) := by
  obtain ⟨s, l⟩ := g
  cases s with
  | none => exact hInv
  | some ss =>
    cases hcr : ss.curRun with
    | none =>
      intro j hj
      simp only [handlePageShow, hcr] at hj ⊢
      rcases Nat.lt_trichotomy j l.length with hlt | heq | hgt
      · exfalso
        have hl : pollingAt l j = true := by
          unfold pollingAt at hj ⊢
          rwa [List.getElem?_append_left hlt] at hj
        obtain ⟨ss2, hss2, hc2⟩ := hInv j hl
        injection hss2 with hss2
        subst hss2
        rw [hcr] at hc2
        cases hc2
      · exact ⟨⟨ss.attach, some l.length⟩, rfl, by rw [heq]⟩
      · exfalso
        unfold pollingAt at hj
        rw [List.getElem?_eq_none_iff.mpr (by simp; omega)] at hj
        cases hj
    | some i =>
      intro j hj
      simp only [handlePageShow, hcr] at hj ⊢
      have hlen : (cancelRunAt ⟨some ss, l⟩ i).runs.length = l.length :=
        length_cancelRunAt _ i
      rcases Nat.lt_trichotomy j l.length with hlt | heq | hgt
      · exfalso
        have hl : pollingAt (cancelRunAt ⟨some ss, l⟩ i).runs j = true := by
          unfold pollingAt at hj ⊢
          rwa [List.getElem?_append_left (by rw [hlen]; exact hlt)] at hj
        obtain ⟨hpl, hne⟩ := pollingAt_cancelRunAt _ i j hl
        obtain ⟨ss2, hss2, hc2⟩ := hInv j hpl
        injection hss2 with hss2
        subst hss2
        rw [hcr] at hc2
        injection hc2 with hc2
        exact hne hc2.symm
      · refine ⟨⟨ss.attach, some (cancelRunAt ⟨some ss, l⟩ i).runs.length⟩, rfl, ?_⟩
        rw [hlen, heq]
      · exfalso
        unfold pollingAt at hj
        rw [List.getElem?_eq_none_iff.mpr (by simp [hlen]; omega)] at hj
        cases hj

/-- Run events preserve the invariant: a step cannot make a run live, and
when it fires a callback the wrapped callback cleans the manager up,
leaving no live run at all. -/
theorem liveInv_runEvent (g : GState) (i : Nat) (e : REvent) (hInv : LiveInv g) :
    LiveInv (runEvent g i e).1 := by
  unfold runEvent
  cases hgi : g.runs[i]? with
  | none => exact hInv
  | some en =>
    have hg1 : LiveInv ⟨g.session,
        g.runs.set i ⟨en.expected, (pollStep mgrMaxAttempts en.expected en.st e).1⟩⟩ := by
      intro j hj
      by_cases hji : j = i
      · subst hji
        have hlt : j < g.runs.length := (List.getElem?_eq_some.mp hgi).1
        unfold pollingAt at hj
        rw [List.getElem?_set_self hlt] at hj
        simp at hj
        have hen : en.st.isPolling = true := pollStep_isPolling_mono _ _ _ _ hj
        exact hInv j (by simp [pollingAt, hgi, hen])
      · refine hInv j ?_
        unfold pollingAt at hj ⊢
        rwa [List.getElem?_set_ne (Ne.symm hji)] at hj
    by_cases hemits : (pollStep mgrMaxAttempts en.expected en.st e).2 = []
    · simpa [hemits] using hg1
    · simp only [hemits, if_false, if_neg hemits]
      intro j hj
      rw [cleanup_kills _ hg1 j] at hj
      cases hj

/-- Every controller step preserves the invariant. -/
theorem liveInv_mgrStep (g : GState) (e : MEvent) (hInv : LiveInv g) :
    LiveInv (mgrStep g e).1 := by
  cases e with
  | start a =>
    intro j hj
    have h0 := cleanup_kills g hInv j
    simp only [mgrStep, startPayment] at hj
    unfold pollingAt at hj h0
    rw [h0] at hj
    cases hj
  | doCleanup =>
    intro j hj
    have h0 := cleanup_kills g hInv j
    simp only [mgrStep] at hj
    rw [h0] at hj
    cases hj
  | pageShow => exact liveInv_pageShow g hInv
  | timer i => exact liveInv_runEvent g i REvent.timerFire hInv
  | resolve i q => exact liveInv_runEvent g i (REvent.resolve q) hInv

/-- The invariant holds along every trace. -/
theorem liveInv_mgrTrace :
    ∀ (es : List MEvent) (g : GState), LiveInv g → LiveInv (mgrTrace g es).1 := by
  intro es
  induction es with
  | nil => intro g h; exact h
  | cons e es ih =>
    intro g h
    exact ih _ (liveInv_mgrStep g e h)

/-- Trace with one session in which a resume signal restarts polling while
the first query of run 0 is still in flight, after which both outstanding
queries resolve with the complete matching response. -/
def doubleFireTrace : List MEvent :=
  [MEvent.start "TOK1", MEvent.pageShow, MEvent.timer 0, MEvent.pageShow,
    MEvent.timer 1, MEvent.resolve 0 (QueryOutcome.ok okResp),
    MEvent.resolve 1 (QueryOutcome.ok okResp)]

/-- C2, counterexample.  The claim states that each callback fires at most
once per session.  In `doubleFireTrace` a single session is started; the
second resume signal cancels run 0 while its query is outstanding and
starts run 1; run 0 then resolves — its wrapped `onSuccess` cleans the
manager up (cancelling run 1, whose query is also already outstanding) and
fires the user `onSuccess`; when run 1 resolves, its continuation does not
re-check `isPolling`, so the user `onSuccess` fires a second time. -/
theorem claim2_counterexample :
    (doubleFireTrace.filter isStartEvent).length = 1 ∧
      (mgrTrace initG doubleFireTrace).2.count CB.success = 2 := by decide

/-- Trace of one session whose first attempt resolved incomplete, leaving
run 0 live with one attempt made and the next attempt scheduled. -/
def resumeBusyTrace : List MEvent :=
  [MEvent.start "TOK1", MEvent.pageShow, MEvent.timer 0,
    MEvent.resolve 0 (QueryOutcome.ok pendingResp)]

/-- C4, counterexample.  The claim states that a resume signal arriving
while the session is already polling is a no-op.  After `resumeBusyTrace`
run 0 is live (mid-interval, `attempts = 1`); the next resume signal
changes the state: it cancels run 0 and installs a fresh run 1 whose
attempt counter is 0. -/
theorem claim4_counterexample :
    pollingAt (mgrTrace initG resumeBusyTrace).1.runs 0 = true ∧
      (mgrStep (mgrTrace initG resumeBusyTrace).1 MEvent.pageShow).1
        ≠ (mgrTrace initG resumeBusyTrace).1 ∧
      (mgrTrace initG (resumeBusyTrace ++ [MEvent.pageShow])).1
        = ⟨some ⟨"TOK1", some 1⟩,
            [⟨"TOK1", ⟨1, false, false, false⟩⟩, ⟨"TOK1", ⟨0, true, true, false⟩⟩]⟩ := by
  decide

/-- C4, amended: a resume signal with no session is a no-op, but a resume
signal while a session is active restarts polling rather than leaving it
alone: the currently registered run (when its index exists) is cancelled,
and a fresh run — attempt counter 0, first attempt scheduled — is
appended and registered as the current run. -/
theorem claim4_amended (g : GState) :
    (g.session = none → handlePageShow g = g) ∧
      (∀ ss, g.session = some ss →
        (handlePageShow g).runs.length = g.runs.length + 1 ∧
          (handlePageShow g).session = some ⟨ss.attach, some g.runs.length⟩ ∧
          (handlePageShow g).runs[g.runs.length]? = some ⟨ss.attach, initRun⟩ ∧
          initRun.attempts = 0 ∧
          (∀ i, ss.curRun = some i → i < g.runs.length →
            pollingAt (handlePageShow g).runs i = false)) := by
  obtain ⟨s, l⟩ := g
  cases s with
  | none =>
    refine ⟨fun _ => rfl, ?_⟩
    intro ss hss
    cases hss
  | some ss0 =>
    refine ⟨?_, ?_⟩
    · intro h
      simp at h
    intro ss hss
    injection hss with hss
    subst hss
    cases hcr : ss0.curRun with
    | none =>
      refine ⟨?_, ?_, ?_, rfl, ?_⟩
      · simp [handlePageShow, hcr]
      · simp [handlePageShow, hcr]
      · simp only [handlePageShow, hcr]
        exact List.getElem?_concat_length _ _
      · intro i hi hlt
        exact nomatch hi
    | some i0 =>
      have hlen := length_cancelRunAt ⟨some ss0, l⟩ i0
      refine ⟨?_, ?_, ?_, rfl, ?_⟩
      · simp [handlePageShow, hcr, hlen]
      · simp [handlePageShow, hcr, hlen]
      · simp only [handlePageShow, hcr]
        rw [show (l : List RunEntry).length
            = (cancelRunAt ⟨some ss0, l⟩ i0).runs.length from hlen.symm]
        exact List.getElem?_concat_length _ _
      · intro i hi hlt
        injection hi with hi
        subst hi
        simp only [handlePageShow, hcr]
        unfold pollingAt
        rw [List.getElem?_append_left (by rw [hlen]; exact hlt)]
        unfold cancelRunAt
        rw [List.getElem?_eq_getElem hlt]
        simp [List.getElem?_set_self (by simpa using hlt), cancelEntry]

/-- C4 amended, witness: on a session whose current run 0 is live with one
attempt made, a resume signal appends a fresh run and cancels run 0. -/
theorem claim4_amended_witness :
    (handlePageShow ⟨some ⟨"TOK1", some 0⟩, [⟨"TOK1", ⟨1, true, true, false⟩⟩]⟩).runs.length
        = 1 + 1 ∧
      pollingAt
        (handlePageShow ⟨some ⟨"TOK1", some 0⟩, [⟨"TOK1", ⟨1, true, true, false⟩⟩]⟩).runs 0
        = false := by
  have h := (claim4_amended ⟨some ⟨"TOK1", some 0⟩, [⟨"TOK1", ⟨1, true, true, false⟩⟩]⟩).2
    ⟨"TOK1", some 0⟩ rfl
  exact ⟨h.1, h.2.2.2.2 0 rfl (by decide)⟩

/-- C5, confirmed: starting from a fresh controller, after any sequence of
session starts, resume signals, timer firings, query resolutions and
cleanups, at most one polling run is live (able to schedule attempts) at
any instant: any two live indices coincide.  `startPayment` tears the
predecessor down synchronously and `startPolling` cancels the prior run
before creating the next, so two polling loops never coexist. -/
theorem claim5_single_engine (es : List MEvent) (i j : Nat)
    (hi : pollingAt (mgrTrace initG es).1.runs i = true)
    (hj : pollingAt (mgrTrace initG es).1.runs j = true) : i = j := by
  have h0 : LiveInv initG := by
    intro k hk
    simp [pollingAt, initG] at hk
  have hInv := liveInv_mgrTrace es initG h0
  obtain ⟨ss1, hs1, hc1⟩ := hInv i hi
  obtain ⟨ss2, hs2, hc2⟩ := hInv j hj
  rw [hs1] at hs2
  injection hs2 with hs2
  subst hs2
  rw [hc1] at hc2
  injection hc2

/-- C5, witness: after one session start and one resume signal, run 0 is
live and the uniqueness theorem applies to it. -/
theorem claim5_witness :
    pollingAt (mgrTrace initG [MEvent.start "TOK1", MEvent.pageShow]).1.runs 0 = true ∧
      (0 : Nat) = 0 :=
  ⟨by decide,
    claim5_single_engine [MEvent.start "TOK1", MEvent.pageShow] 0 0 (by decide) (by decide)⟩

/-- C8, confirmed: `cleanup` is idempotent and total — applying it twice
equals applying it once, it always leaves no session installed, and with
no active session it changes nothing at all. -/
theorem claim8_cleanup_idempotent (g : GState) :
    cleanup (cleanup g) = cleanup g ∧
      (cleanup g).session = none ∧
      (g.session = none → cleanup g = g) := by
  obtain ⟨s, l⟩ := g
  cases s with
  | none => exact ⟨rfl, rfl, fun _ => rfl⟩
  | some ss =>
    refine ⟨?_, ?_, fun h => by cases h⟩
    · cases hcr : ss.curRun <;> simp [cleanup, hcr]
    · cases hcr : ss.curRun <;> simp [cleanup, hcr]

/-- C8, witness: the theorem instantiated at the fresh controller. -/
theorem claim8_witness :
    cleanup (cleanup initG) = cleanup initG ∧
      (cleanup initG).session = none ∧
      (initG.session = none → cleanup initG = initG) :=
  claim8_cleanup_idempotent initG

/-- C9, counterexample.  The claim states that `manualCheckPaymentStatus`
returns null exactly when there is no active session.  On a controller
with an active session expecting attach "TOK1", a complete response whose
attach token is "TOK2" makes it clean up and return null. -/
theorem claim9_counterexample :
    ((⟨some ⟨"TOK1", none⟩, []⟩ : GState).session ≠ none) ∧
      (manualCheckPaymentStatus ⟨some ⟨"TOK1", none⟩, []⟩
          (QueryOutcome.ok mismatchResp)).2.1 = none := by decide

/-- C9, amended: `manualCheckPaymentStatus` never starts the polling
engine — the set of runs never grows, no run becomes live, and the state
is either untouched or cleaned up.  With no active session it returns
null without querying and without side effects.  With an active session
it queries once and follows `verify`: a gateway error returns null;
Verified cleans up and returns the response; Mismatched cleans up and
returns null (so null is not returned only in the no-session case);
Incomplete leaves the state unchanged and returns the response. -/
theorem claim9_amended (g : GState) (q : QueryOutcome) :
    ((manualCheckPaymentStatus g q).1 = g ∨
        (manualCheckPaymentStatus g q).1 = cleanup g) ∧
      (manualCheckPaymentStatus g q).1.runs.length = g.runs.length ∧
      (∀ i, pollingAt (manualCheckPaymentStatus g q).1.runs i = true →
        pollingAt g.runs i = true) ∧
      (g.session = none → manualCheckPaymentStatus g q = (g, none, false)) ∧
      (∀ ss, g.session = some ss → q = QueryOutcome.err →
        manualCheckPaymentStatus g q = (g, none, true)) ∧
      (∀ ss r, g.session = some ss → q = QueryOutcome.ok r →
        (verify r ss.attach = .verified →
            manualCheckPaymentStatus g q = (cleanup g, some r, true)) ∧
          (verify r ss.attach = .mismatched →
            manualCheckPaymentStatus g q = (cleanup g, none, true)) ∧
          (verify r ss.attach = .incomplete →
            manualCheckPaymentStatus g q = (g, some r, true))) := by
  obtain ⟨s, l⟩ := g
  cases s with
  | none =>
    refine ⟨Or.inl rfl, rfl, fun i hi => hi, fun _ => rfl, ?_, ?_⟩
    · intro ss hss _
      exact nomatch hss
    · intro ss r hss _
      exact nomatch hss
  | some ss0 =>
    cases q with
    | err =>
      refine ⟨Or.inl rfl, rfl, fun i hi => hi, ?_, ?_, ?_⟩
      · intro h
        simp at h
      · intro ss hss _
        rfl
      · intro ss r _ hq
        injection hq
    | ok r =>
      by_cases hc : isPaymentComplete r
      · by_cases ha : (r.attach == some ss0.attach) = true
        · have heq : manualCheckPaymentStatus ⟨some ss0, l⟩ (QueryOutcome.ok r)
              = (cleanup ⟨some ss0, l⟩, some r, true) := by
            simp [manualCheckPaymentStatus, hc, ha]
          refine ⟨Or.inr (by rw [heq]), by rw [heq]; exact length_cleanup _,
            ?_, ?_, ?_, ?_⟩
          · intro i hi
            rw [heq] at hi
            exact pollingAt_cleanup _ i hi
          · intro h
            simp at h
          · intro ss hss hq
            injection hq
          · intro ss r2 hss hq
            injection hss with hss
            subst hss
            injection hq with hq
            subst hq
            have hv : verify r ss0.attach = .verified := by simp [verify, hc, ha]
            refine ⟨fun _ => heq, fun h2 => ?_, fun h2 => ?_⟩
            · rw [hv] at h2
              exact nomatch h2
            · rw [hv] at h2
              exact nomatch h2
        · have heq : manualCheckPaymentStatus ⟨some ss0, l⟩ (QueryOutcome.ok r)
              = (cleanup ⟨some ss0, l⟩, none, true) := by
            simp [manualCheckPaymentStatus, hc, ha]
          refine ⟨Or.inr (by rw [heq]), by rw [heq]; exact length_cleanup _,
            ?_, ?_, ?_, ?_⟩
          · intro i hi
            rw [heq] at hi
            exact pollingAt_cleanup _ i hi
          · intro h
            simp at h
          · intro ss hss hq
            injection hq
          · intro ss r2 hss hq
            injection hss with hss
            subst hss
            injection hq with hq
            subst hq
            have hv : verify r ss0.attach = .mismatched := by simp [verify, hc, ha]
            refine ⟨fun h2 => ?_, fun _ => heq, fun h2 => ?_⟩
            · rw [hv] at h2
              exact nomatch h2
            · rw [hv] at h2
              exact nomatch h2
      · have hc0 : isPaymentComplete r = false := by simpa using hc
        have heq : manualCheckPaymentStatus ⟨some ss0, l⟩ (QueryOutcome.ok r)
            = (⟨some ss0, l⟩, some r, true) := by
          simp [manualCheckPaymentStatus, hc0]
        refine ⟨Or.inl (by rw [heq]), by rw [heq], ?_, ?_, ?_, ?_⟩
        · intro i hi
          rw [heq] at hi
          exact hi
        · intro h
          simp at h
        · intro ss hss hq
          injection hq
        · intro ss r2 hss hq
          injection hss with hss
          subst hss
          injection hq with hq
          subst hq
          have hv : verify r ss0.attach = .incomplete := by simp [verify, hc0]
          refine ⟨fun h2 => ?_, fun h2 => ?_, fun _ => heq⟩
          · rw [hv] at h2
            exact nomatch h2
          · rw [hv] at h2
            exact nomatch h2

/-- C9 amended, witness: on an active session, a complete matching
response makes the manual check clean up and return the response. -/
theorem claim9_amended_witness :
    manualCheckPaymentStatus ⟨some ⟨"TOK1", none⟩, []⟩ (QueryOutcome.ok okResp)
      = (cleanup ⟨some ⟨"TOK1", none⟩, []⟩, some okResp, true) :=
  ((claim9_amended ⟨some ⟨"TOK1", none⟩, []⟩ (QueryOutcome.ok okResp)).2.2.2.2.2
    ⟨"TOK1", none⟩ okResp rfl rfl).1 (by decide)

end OriginX
